import Mathlib

/-!
Verification development for the msg broker core.

The definitions below are a shallow embedding of the dispatch engine in
src/msg/broker.py together with the record constructors of
src/msg/protocol.py and the snapshot store of src/msg/persistence.py.
Python dict keys obtained via message.get may be absent, so registry keys
and payloads are Option String.  Delivery success of a stream write to a
given connection handle is abstracted by an environment env : Handle → Bool
(a handle whose write plus drain raises has env h = false).  The
chronological sequence of successful stream writes is recorded in a trace
field sent, which models the byte streams the clients observe.
-/

/-- Registry key: the value of message.get for the topic field (possibly absent). -/
abbrev Key := Option String

/-- Stored payload: the value of message.get for the message field (possibly absent). -/
abbrev Payload := Option String

/-- A broker message as stored in backlogs, queues and snapshots: (payload, message_id). -/
abbrev Msg := Payload × String

/-- A connection handle: stands for one writer object of the source. -/
abbrev Handle := Nat

/-- One record written to a client stream: a delivered message
(type message in protocol.py), an ack (make_ack), or an error (make_error,
whose message_id field is present only when a truthy id was supplied). -/
inductive Record where
  | msg (topic : Key) (payload : Payload) (message_id : String)
  | ack (message_id : String)
  | err (error : String) (message_id : Option String)
deriving DecidableEq, Repr

/-- Pointwise update of a total function, modelling assignment to one dict key. -/
def upd {κ α : Type} [DecidableEq κ] (f : κ → α) (k : κ) (v : α) : κ → α :=
  fun x => if x = k then v else f x

/-- Update of the two-level snapshot map at one (mode, topic) file. -/
def updDisk (d : String → Key → List Msg) (mode : String) (topic : Key)
    (v : List Msg) : String → Key → List Msg :=
  upd d mode (upd (d mode) topic v)

/-- The broker state of SimpleMessageBroker (broker.py, constructor lines 41-44):
queues holds the pub/sub backlogs (the asyncio.Queue contents, front = oldest),
ptp_queues the point-to-point FIFOs (front = head), subscribers and
ptp_consumers the live handle registries, disk the snapshot files keyed by
mode and topic, and sent the trace of successful stream writes. -/
structure Broker where
  queues : Key → List Msg
  ptp_queues : Key → List Msg
  subscribers : Key → List Handle
  ptp_consumers : Key → List Handle
  disk : String → Key → List Msg
  sent : List (Handle × Record)

/-- The broker state right after construction with an empty data directory. -/
def emptyBroker : Broker :=
  { queues := fun _ => []
    ptp_queues := fun _ => []
    subscribers := fun _ => []
    ptp_consumers := fun _ => []
    disk := fun _ _ => []
    sent := [] }

/-- Inner loop of notify_subscribers (broker.py lines 155-161): iterate over a
snapshot of the subscriber list; a successful write appends the message record
to the trace; a failed write removes the handle (list.remove, first
occurrence) from the live subscriber list and is not propagated. -/
def fanOutAux (env : Handle → Bool) (topic : Key) (payload : Payload) (mid : String) :
    List Handle → Broker → Broker
  | [], b => b
  | s :: rest, b =>
    if env s then
      fanOutAux env topic payload mid rest
        { b with sent := b.sent ++ [(s, Record.msg topic payload mid)] }
    else
      fanOutAux env topic payload mid rest
        { b with subscribers := upd b.subscribers topic ((b.subscribers topic).erase s) }

/-- notify_subscribers (broker.py lines 146-161): fan out one published message
over a snapshot of the current subscriber list of the topic. -/
def notify_subscribers (env : Handle → Bool) (topic : Key) (payload : Payload)
    (mid : String) (b : Broker) : Broker :=
  fanOutAux env topic payload mid (b.subscribers topic) b

/-- notify_ptp_consumer (broker.py lines 163-180): when both the pending FIFO
and the consumer list of the queue are non-empty, pop the head message and
attempt delivery to the first consumer; on success append the record to the
trace and save the remaining queue to disk; on failure remove that consumer
(list.remove) and do nothing else, so the popped message is gone. -/
def notify_ptp_consumer (env : Handle → Bool) (topic : Key) (b : Broker) : Broker :=
  match b.ptp_queues topic, b.ptp_consumers topic with
  | (payload, mid) :: restQ, c :: _ =>
    let b1 : Broker := { b with ptp_queues := upd b.ptp_queues topic restQ }
    if env c then
      { b1 with
        sent := b1.sent ++ [(c, Record.msg topic payload mid)]
        disk := updDisk b1.disk "queue" topic restQ }
    else
      { b1 with ptp_consumers := upd b1.ptp_consumers topic ((b1.ptp_consumers topic).erase c) }
  | _, _ => b

/-- Backlog replay loop of the pubsub subscribe branch (broker.py lines
113-119): send each backlog message in order to the new subscriber; on the
first failed write, break (remaining backlog messages are not sent). -/
def replayBacklog (env : Handle → Bool) (h : Handle) (topic : Key) :
    List Msg → Broker → Broker
  | [], b => b
  | (payload, mid) :: rest, b =>
    if env h then
      replayBacklog env h topic rest
        { b with sent := b.sent ++ [(h, Record.msg topic payload mid)] }
    else
      b

/-- A decoded request dictionary; each field is read with message.get and may
be absent. -/
structure Request where
  action : Option String
  topic : Option String
  message : Option String
  mode : Option String
  message_id : Option String

/-- Line 87 of broker.py: message_id = message.get(message_id) or
generate_message_id().  Python or treats None and the empty string as falsy;
fresh stands for the uuid the broker would generate. -/
def effectiveId (fresh : String) (r : Request) : String :=
  match r.message_id with
  | some s => if s = "" then fresh else s
  | none => fresh

/-- How an optional field renders inside a Python f-string: None prints as None. -/
def pyStr : Option String → String
  | some s => s
  | none => "None"

/-- Publish branch, mode pubsub (broker.py lines 93-98 and 104-105): append to
the backlog, fan out to current subscribers, rewrite the pubsub snapshot with
the full backlog, then write the ack to the requester. -/
def pubsubPublish (env : Handle → Bool) (h : Handle) (mid : String)
    (r : Request) (b : Broker) : Broker :=
  let b1 : Broker := { b with queues := upd b.queues r.topic (b.queues r.topic ++ [(r.message, mid)]) }
  let b2 : Broker := notify_subscribers env r.topic r.message mid b1
  let b3 : Broker := { b2 with disk := updDisk b2.disk "pubsub" r.topic (b2.queues r.topic) }
  { b3 with sent := b3.sent ++ [(h, Record.ack mid)] }

/-- Publish branch, mode queue (broker.py lines 99-105): append to the pending
FIFO, run one delivery step, rewrite the queue snapshot with the remaining
FIFO, then write the ack to the requester. -/
def queuePublish (env : Handle → Bool) (h : Handle) (mid : String)
    (r : Request) (b : Broker) : Broker :=
  let b1 : Broker := { b with ptp_queues := upd b.ptp_queues r.topic (b.ptp_queues r.topic ++ [(r.message, mid)]) }
  let b2 : Broker := notify_ptp_consumer env r.topic b1
  let b3 : Broker := { b2 with disk := updDisk b2.disk "queue" r.topic (b2.ptp_queues r.topic) }
  { b3 with sent := b3.sent ++ [(h, Record.ack mid)] }

/-- Subscribe branch, mode pubsub (broker.py lines 110-121): register the
handle in the subscriber list, then replay a snapshot of the backlog to it
(the backlog itself is inspected, not drained). -/
def pubsubSubscribe (env : Handle → Bool) (h : Handle) (r : Request) (b : Broker) : Broker :=
  let b1 : Broker := { b with subscribers := upd b.subscribers r.topic (b.subscribers r.topic ++ [h]) }
  replayBacklog env h r.topic (b1.queues r.topic) b1

/-- Subscribe branch, mode queue (broker.py lines 122-124): register the handle
in the consumer list, then run one delivery step. -/
def queueSubscribe (env : Handle → Bool) (h : Handle) (r : Request) (b : Broker) : Broker :=
  notify_ptp_consumer env r.topic
    { b with ptp_consumers := upd b.ptp_consumers r.topic (b.ptp_consumers r.topic ++ [h]) }

/-- Dispatch of one decoded request in handle_client (broker.py lines 86-132):
publish routes on the mode field (default pubsub) and always acks; subscribe
registers per mode; ack only logs; any other action gets an error record that
carries the effective message id. -/
def handle_request (env : Handle → Bool) (h : Handle) (fresh : String)
    (r : Request) (b : Broker) : Broker :=
  if r.action = some "publish" then
    if r.mode.getD "pubsub" = "pubsub" then
      pubsubPublish env h (effectiveId fresh r) r b
    else if r.mode.getD "pubsub" = "queue" then
      queuePublish env h (effectiveId fresh r) r b
    else
      { b with sent := b.sent ++ [(h, Record.ack (effectiveId fresh r))] }
  else if r.action = some "subscribe" then
    if r.mode.getD "pubsub" = "pubsub" then
      pubsubSubscribe env h r b
    else if r.mode.getD "pubsub" = "queue" then
      queueSubscribe env h r b
    else
      b
  else if r.action = some "ack" then
    b
  else
    { b with sent := b.sent ++ [(h, Record.err ("Unknown action: " ++ pyStr r.action) (some (effectiveId fresh r)))] }

/-- Raw input of one read: either a request that parse_message decodes, or
undecodable bytes (parse_message raises, with the error text e). -/
inductive Wire where
  | good (r : Request)
  | bad (e : String)

/-- One event seen by the per-connection loop: a data chunk, end of stream
(read returned empty), or an I/O error raised on the connection itself. -/
inductive InEvent where
  | data (w : Wire)
  | eof
  | ioerror

/-- The finally block of handle_client (broker.py lines 135-141): for every
topic in each registry, if the writer is present, remove it (list.remove,
first occurrence). -/
def cleanup (h : Handle) (b : Broker) : Broker :=
  { b with
    subscribers := fun t =>
      if h ∈ b.subscribers t then (b.subscribers t).erase h else b.subscribers t
    ptp_consumers := fun t =>
      if h ∈ b.ptp_consumers t then (b.ptp_consumers t).erase h else b.ptp_consumers t }

/-- The per-connection request loop of handle_client (broker.py lines 74-144):
empty read (eof) breaks the loop, an I/O error leaves it exceptionally, and in
both cases and at stream exhaustion the finally block runs cleanup; a
malformed chunk sends an error record with no id and continues the loop; a
decoded request is dispatched and the loop continues.  fresh n is the uuid
generated for the n-th decoded request. -/
def run (env : Handle → Bool) (h : Handle) (fresh : Nat → String) :
    Nat → List InEvent → Broker → Broker
  | _, [], b => cleanup h b
  | _, InEvent.eof :: _, b => cleanup h b
  | _, InEvent.ioerror :: _, b => cleanup h b
  | n, InEvent.data (Wire.bad e) :: rest, b =>
    run env h fresh n rest { b with sent := b.sent ++ [(h, Record.err e none)] }
  | n, InEvent.data (Wire.good r) :: rest, b =>
    run env h fresh (n + 1) rest (handle_request env h (fresh n) r b)

/-- The stream a given handle has received: the projection of the write trace
onto that handle. -/
def receivedBy (h : Handle) (b : Broker) : List Record :=
  (b.sent.filter (fun p => p.1 == h)).map (fun p => p.2)

/-- A JSON value as produced by json.dump and consumed by json.load,
restricted to the shapes the snapshot store writes: null, string, array. -/
inductive JValue where
  | null
  | str (s : String)
  | arr (l : List JValue)

/-- json.dump of a payload: a None payload dumps as null, a string as itself. -/
def encPayload : Payload → JValue
  | none => JValue.null
  | some s => JValue.str s

/-- json.dump of one (payload, id) pair: a two-element array. -/
def encMsg (m : Msg) : JValue :=
  JValue.arr [encPayload m.1, JValue.str m.2]

/-- The JSON array save_messages writes for a whole message list. -/
def save_data (messages : List Msg) : JValue :=
  JValue.arr (messages.map encMsg)

/-- Reading a payload back from its JSON form. -/
def decPayload : JValue → Option Payload
  | JValue.null => some none
  | JValue.str s => some (some s)
  | _ => none

/-- Reading one (payload, id) pair back from its JSON form. -/
def decMsg : JValue → Option Msg
  | JValue.arr [p, JValue.str i] => (decPayload p).map (fun pl => (pl, i))
  | _ => none

/-- Reading a message list back element by element; none when some element is
not a (payload, id) pair. -/
def load_list : List JValue → Option (List Msg)
  | [] => some []
  | j :: rest =>
    match decMsg j, load_list rest with
    | some m, some ms => some (m :: ms)
    | _, _ => none

/-- Reading a whole snapshot file content back as a message list. -/
def load_data : JValue → Option (List Msg)
  | JValue.arr l => load_list l
  | _ => none

/-- _topic_file (persistence.py line 28): the snapshot file path for one
(mode, topic) pair, relative to the data directory. -/
def _topic_file (topic mode : String) : String :=
  mode ++ "_" ++ topic ++ ".json"

/-- save_messages (persistence.py lines 30-41) over a file system fs mapping
path to content: the whole message list is written as one JSON array,
overwriting the file for that (mode, topic). -/
def save_messages (topic : String) (messages : List Msg) (mode : String)
    (fs : String → Option JValue) : String → Option JValue :=
  upd fs (_topic_file topic mode) (some (save_data messages))

/-- load_messages (persistence.py lines 43-57): a missing file loads as the
empty list; otherwise the JSON content is read back as a message list (none
when the stored content is not a list of pairs). -/
def load_messages (topic mode : String) (fs : String → Option JValue) :
    Option (List Msg) :=
  match fs (_topic_file topic mode) with
  | none => some []
  | some j => load_data j

lemma decMsg_encMsg (m : Msg) : decMsg (encMsg m) = some m := by
  obtain ⟨p, i⟩ := m
  cases p <;> rfl

lemma load_list_map_encMsg (X : List Msg) : load_list (X.map encMsg) = some X := by
  induction X with
  | nil => rfl
  | cons m rest ih => simp [load_list, decMsg_encMsg, ih]

/-- C6: saving an ordered list X of (payload, id) pairs for any topic name and
mode and then loading that topic and mode back yields exactly X, with the same
elements in the same order. -/
theorem c6_snapshot_round_trip (X : List Msg) (topic mode : String)
    (fs : String → Option JValue) :
    load_messages topic mode (save_messages topic X mode fs) = some X := by
  simp [load_messages, save_messages, upd, load_data, save_data, load_list_map_encMsg]

/-- C7: a malformed (undecodable) chunk makes the loop write an error record
that carries no message id to the requester and then continue with the
remaining events on the same connection, whatever they are. -/
theorem c7_malformed_request_recovery (env : Handle → Bool) (h : Handle)
    (fresh : Nat → String) (n : Nat) (e : String) (rest : List InEvent) (b : Broker) :
    run env h fresh n (InEvent.data (Wire.bad e) :: rest) b =
      run env h fresh n rest { b with sent := b.sent ++ [(h, Record.err e none)] } := rfl

/-- C2: the point-to-point delivery step is a no-op unless both the pending
FIFO and the consumer list are non-empty; when both are non-empty it pops the
head message and attempts delivery to the first consumer; on failure that
consumer is removed from the list and nothing is sent, the popped message
staying lost; on success the message record reaches the consumer and the
consumer list is untouched. -/
theorem c2_delivery_step (env : Handle → Bool) (topic : Key) :
    (∀ b : Broker, b.ptp_queues topic = [] → notify_ptp_consumer env topic b = b) ∧
    (∀ b : Broker, b.ptp_consumers topic = [] → notify_ptp_consumer env topic b = b) ∧
    (∀ (b : Broker) (p : Payload) (mid : String) (restQ : List Msg)
        (c : Handle) (restC : List Handle),
      b.ptp_queues topic = (p, mid) :: restQ → b.ptp_consumers topic = c :: restC →
      ((env c = false →
        (notify_ptp_consumer env topic b).ptp_queues topic = restQ ∧
        (notify_ptp_consumer env topic b).ptp_consumers topic = restC ∧
        (notify_ptp_consumer env topic b).sent = b.sent) ∧
       (env c = true →
        (notify_ptp_consumer env topic b).ptp_queues topic = restQ ∧
        (notify_ptp_consumer env topic b).sent = b.sent ++ [(c, Record.msg topic p mid)] ∧
        (notify_ptp_consumer env topic b).ptp_consumers topic = c :: restC))) := by
  refine ⟨?_, ?_, ?_⟩
  · intro b hq
    rcases hc : b.ptp_consumers topic with _ | ⟨c, restC⟩ <;>
      simp [notify_ptp_consumer, hq, hc]
  · intro b hc
    rcases hq : b.ptp_queues topic with _ | ⟨⟨p, mid⟩, restQ⟩ <;>
      simp [notify_ptp_consumer, hq, hc]
  · intro b p mid restQ c restC hq hc
    constructor <;> intro henv <;>
      simp [notify_ptp_consumer, hq, hc, henv, upd]

/-- Environment in which only handle 5 has a failing stream. -/
def env5 : Handle → Bool := fun h => h != 5

/-- A queue q holding two pending messages with two registered consumers, the
first of which has a failing stream. -/
def b2w : Broker :=
  { emptyBroker with
    ptp_queues := upd emptyBroker.ptp_queues (some "q") [(some "a", "i1"), (some "b", "i2")]
    ptp_consumers := upd emptyBroker.ptp_consumers (some "q") [5, 7] }

/-- Witness for C2: on the concrete state b2w the failing head consumer is
removed, the head message is popped and lost, and nothing is sent. -/
theorem c2_delivery_step_witness :
    (notify_ptp_consumer env5 (some "q") b2w).ptp_queues (some "q") = [(some "b", "i2")] ∧
    (notify_ptp_consumer env5 (some "q") b2w).ptp_consumers (some "q") = [7] ∧
    (notify_ptp_consumer env5 (some "q") b2w).sent = [] := by
  have h := (c2_delivery_step env5 (some "q")).2.2 b2w (some "a") "i1"
    [(some "b", "i2")] 5 [7] (by decide) (by decide)
  have h2 := h.1 (by decide)
  exact ⟨h2.1, h2.2.1, h2.2.2.trans rfl⟩

/-- C9: with the on-disk queue snapshot in sync with the pending FIFO, a
failed delivery attempt pops the head message from the in-memory FIFO yet
performs no snapshot save at all, so the disk still holds the lost message;
the snapshot is rewritten only on the successful-delivery path. -/
theorem c9_no_save_on_failed_delivery (env : Handle → Bool) (topic : Key) (b : Broker)
    (p : Payload) (mid : String) (restQ : List Msg) (c : Handle) (restC : List Handle)
    (hq : b.ptp_queues topic = (p, mid) :: restQ)
    (hc : b.ptp_consumers topic = c :: restC)
    (hsync : b.disk "queue" topic = (p, mid) :: restQ) :
    (env c = false →
      (notify_ptp_consumer env topic b).disk = b.disk ∧
      (notify_ptp_consumer env topic b).disk "queue" topic = (p, mid) :: restQ ∧
      (notify_ptp_consumer env topic b).ptp_queues topic = restQ) ∧
    (env c = true →
      (notify_ptp_consumer env topic b).disk "queue" topic = restQ) := by
  constructor <;> intro henv <;>
    simp [notify_ptp_consumer, hq, hc, henv, upd, updDisk, hsync]

/-- A queue q holding one pending message, mirrored on disk, with one
registered consumer whose stream fails. -/
def b9w : Broker :=
  { emptyBroker with
    ptp_queues := upd emptyBroker.ptp_queues (some "q") [(some "a", "i1")]
    ptp_consumers := upd emptyBroker.ptp_consumers (some "q") [5]
    disk := updDisk emptyBroker.disk "queue" (some "q") [(some "a", "i1")] }

/-- Witness for C9: on the concrete state b9w the failed delivery leaves the
disk snapshot holding the message that is gone from the in-memory FIFO. -/
theorem c9_no_save_on_failed_delivery_witness :
    (notify_ptp_consumer env5 (some "q") b9w).disk "queue" (some "q") = [(some "a", "i1")] ∧
    (notify_ptp_consumer env5 (some "q") b9w).ptp_queues (some "q") = [] := by
  have h := (c9_no_save_on_failed_delivery env5 (some "q") b9w (some "a") "i1" [] 5 []
    (by decide) (by decide) (by decide)).1 (by decide)
  exact ⟨h.2.1, h.2.2⟩

/-- C10: a publish request whose mode is neither pubsub nor queue changes no
backlog, no pending FIFO, no registry and no snapshot: the whole broker state
is unchanged except that an ack carrying the effective message id is written
to the requester, and no error record is produced. -/
theorem c10_unknown_mode_publish (env : Handle → Bool) (h : Handle) (fresh : String)
    (r : Request) (b : Broker) (m : String)
    (ha : r.action = some "publish") (hm : r.mode = some m)
    (h1 : m ≠ "pubsub") (h2 : m ≠ "queue") :
    handle_request env h fresh r b =
      { b with sent := b.sent ++ [(h, Record.ack (effectiveId fresh r))] } := by
  simp [handle_request, ha, hm, h1, h2]

/-- Environment in which every stream write succeeds. -/
def envAll : Handle → Bool := fun _ => true

/-- A publish request with an unrecognized mode. -/
def r10 : Request :=
  { action := some "publish", topic := some "t", message := some "x"
    mode := some "sideways", message_id := some "id9" }

/-- Witness for C10: the concrete unknown-mode publish leaves the broker
unchanged apart from the ack on the trace. -/
theorem c10_unknown_mode_publish_witness :
    handle_request envAll 0 "g" r10 emptyBroker =
      { emptyBroker with
        sent := emptyBroker.sent ++ [(0, Record.ack (effectiveId "g" r10))] } :=
  c10_unknown_mode_publish envAll 0 "g" r10 emptyBroker "sideways"
    rfl rfl (by decide) (by decide)

/-- A well-formed request whose action is recognized by no branch and which
carries no message id of its own. -/
def r8 : Request :=
  { action := some "frobnicate", topic := none, message := none
    mode := none, message_id := none }

/-- C8, counterexample: on a request with an unrecognized action and no
message id, the error record written back does carry a message id, namely the
freshly generated one, not no id as the claim states. -/
theorem c8_counterexample :
    (handle_request envAll 0 "gen0" r8 emptyBroker).sent =
      [(0, Record.err "Unknown action: frobnicate" (some "gen0"))] ∧
    (some "gen0" : Option String) ≠ none := by
  refine ⟨rfl, by decide⟩

/-- C8, amended: a request whose action is none of publish, subscribe and ack
is answered with an error record whose message id is the effective id of
line 87: the request id when it carried a truthy one, and the freshly
generated uuid otherwise. -/
theorem c8_amended_unknown_action (env : Handle → Bool) (h : Handle) (fresh : String)
    (r : Request) (b : Broker)
    (h1 : r.action ≠ some "publish") (h2 : r.action ≠ some "subscribe")
    (h3 : r.action ≠ some "ack") :
    (handle_request env h fresh r b).sent =
      b.sent ++ [(h, Record.err ("Unknown action: " ++ pyStr r.action)
        (some (effectiveId fresh r)))] ∧
    (∀ s, r.message_id = some s → s ≠ "" → effectiveId fresh r = s) ∧
    (r.message_id = none → effectiveId fresh r = fresh) := by
  refine ⟨?_, ?_, ?_⟩
  · simp [handle_request, h1, h2, h3]
  · intro s hs hne
    simp [effectiveId, hs, hne]
  · intro hn
    simp [effectiveId, hn]

/-- Witness for C8 amended: the concrete unrecognized request with no id gets
an error record carrying the generated id. -/
theorem c8_amended_unknown_action_witness :
    (handle_request envAll 0 "gg" r8 emptyBroker).sent =
      [(0, Record.err "Unknown action: frobnicate" (some "gg"))] ∧
    effectiveId "gg" r8 = "gg" := by
  have h := c8_amended_unknown_action envAll 0 "gg" r8 emptyBroker
    (by decide) (by decide) (by decide)
  exact ⟨h.1.trans rfl, h.2.2 rfl⟩

/-- A publish request carrying payload p and id i for queue t in mode queue. -/
def pubQReq (t p i : String) : Request :=
  { action := some "publish", topic := some t, message := some p
    mode := some "queue", message_id := some i }

/-- A subscribe request for queue t in mode queue. -/
def subQReq (t : String) : Request :=
  { action := some "subscribe", topic := some t, message := none
    mode := some "queue", message_id := none }

/-- The broker state after connection 0 publishes a then b to queue q1 with no
consumer registered and connection 1 then registers as a consumer, every
stream write succeeding. -/
def c1Broker : Broker :=
  handle_request envAll 1 "f2" (subQReq "q1")
    (handle_request envAll 0 "f1" (pubQReq "q1" "b" "idb")
      (handle_request envAll 0 "f0" (pubQReq "q1" "a" "ida") emptyBroker))

/-- C1, counterexample: after enqueuing a and b and then registering consumer
1, the pending FIFO of q1 is not empty (it still holds b) and consumer 1 has
received only a, not a followed by b. -/
theorem c1_counterexample :
    c1Broker.ptp_queues (some "q1") ≠ [] ∧
    receivedBy 1 c1Broker ≠
      [Record.msg (some "q1") (some "a") "ida",
       Record.msg (some "q1") (some "b") "idb"] := by
  refine ⟨by decide, by decide⟩

/-- C1, amended: registering a consumer triggers exactly one delivery step, so
after enqueuing a and b while no consumer was registered, the new consumer
receives only the head message a and the pending FIFO of q1 still holds b. -/
theorem c1_amended_single_delivery :
    receivedBy 1 c1Broker = [Record.msg (some "q1") (some "a") "ida"] ∧
    c1Broker.ptp_queues (some "q1") = [(some "b", "idb")] := by
  refine ⟨by decide, by decide⟩

lemma not_mem_remove_once (h : Handle) (l : List Handle) (hcnt : l.count h ≤ 1) :
    h ∉ (if h ∈ l then l.erase h else l) := by
  by_cases hm : h ∈ l
  · rw [if_pos hm]
    have h1 : l.count h = 1 :=
      le_antisymm hcnt (List.count_pos_iff.mpr hm)
    have h0 : (l.erase h).count h = 0 := by
      rw [List.count_erase_self, h1]
    exact List.count_eq_zero.mp h0
  · rw [if_neg hm]
    exact hm

/-- C5: whichever way the per-connection loop ends (end of stream, explicit
eof read, or an I/O error), the finally cleanup removes the connection handle
from the subscriber list of every topic and the consumer list of every queue
in which it appears, provided it appears at most once per list, so no registry
references it afterwards. -/
theorem c5_disconnect_deregisters (env : Handle → Bool) (fresh : Nat → String)
    (n : Nat) (h : Handle) (b : Broker)
    (hs : ∀ t, (b.subscribers t).count h ≤ 1)
    (hc : ∀ t, (b.ptp_consumers t).count h ≤ 1) :
    ∀ t,
      (h ∉ (run env h fresh n [InEvent.eof] b).subscribers t ∧
       h ∉ (run env h fresh n [InEvent.ioerror] b).subscribers t ∧
       h ∉ (run env h fresh n [] b).subscribers t) ∧
      (h ∉ (run env h fresh n [InEvent.eof] b).ptp_consumers t ∧
       h ∉ (run env h fresh n [InEvent.ioerror] b).ptp_consumers t ∧
       h ∉ (run env h fresh n [] b).ptp_consumers t) := by
  intro t
  have e1 : run env h fresh n [InEvent.eof] b = cleanup h b := rfl
  have e2 : run env h fresh n [InEvent.ioerror] b = cleanup h b := rfl
  have e3 : run env h fresh n [] b = cleanup h b := rfl
  rw [e1, e2, e3]
  exact ⟨⟨not_mem_remove_once h (b.subscribers t) (hs t),
          not_mem_remove_once h (b.subscribers t) (hs t),
          not_mem_remove_once h (b.subscribers t) (hs t)⟩,
         not_mem_remove_once h (b.ptp_consumers t) (hc t),
         not_mem_remove_once h (b.ptp_consumers t) (hc t),
         not_mem_remove_once h (b.ptp_consumers t) (hc t)⟩

/-- A broker in which handle 7 is subscribed to topic t1 and registered as a
consumer of queue q1 (ahead of handle 3). -/
def b5w : Broker :=
  { emptyBroker with
    subscribers := upd emptyBroker.subscribers (some "t1") [7]
    ptp_consumers := upd emptyBroker.ptp_consumers (some "q1") [7, 3] }

/-- Witness for C5: after the loop of connection 7 ends on b5w, handle 7 is
gone from the t1 subscriber list and from the q1 consumer list on both the
eof and the I/O error exit path. -/
theorem c5_disconnect_deregisters_witness :
    7 ∉ (run envAll 7 (fun _ => "u") 0 [InEvent.eof] b5w).subscribers (some "t1") ∧
    7 ∉ (run envAll 7 (fun _ => "u") 0 [InEvent.ioerror] b5w).ptp_consumers (some "q1") := by
  have h := c5_disconnect_deregisters envAll (fun _ => "u") 0 7 b5w
    (by
      intro t
      by_cases ht : t = (some "t1") <;>
        simp [b5w, emptyBroker, upd, ht])
    (by
      intro t
      by_cases ht : t = (some "q1") <;>
        simp [b5w, emptyBroker, upd, ht])
  exact ⟨(h (some "t1")).1.1, (h (some "q1")).2.2.1⟩

lemma upd_same {κ α : Type} [DecidableEq κ] (f : κ → α) (k : κ) (v : α) :
    upd f k v k = v := by
  simp [upd]

lemma upd_other {κ α : Type} [DecidableEq κ] (f : κ → α) (k : κ) (v : α) (x : κ)
    (hx : x ≠ k) : upd f k v x = f x := by
  simp [upd, hx]

lemma fanOutAux_spec (env : Handle → Bool) (T : Key) (payload : Payload) (mid : String) :
    ∀ (s pre : List Handle) (b : Broker),
      b.subscribers T = pre ++ s → (∀ x ∈ pre, env x = true) →
      (fanOutAux env T payload mid s b).sent =
          b.sent ++ (s.filter env).map (fun x => (x, Record.msg T payload mid)) ∧
      (fanOutAux env T payload mid s b).subscribers T = pre ++ s.filter env ∧
      (fanOutAux env T payload mid s b).queues = b.queues ∧
      (fanOutAux env T payload mid s b).ptp_queues = b.ptp_queues ∧
      (fanOutAux env T payload mid s b).ptp_consumers = b.ptp_consumers ∧
      (fanOutAux env T payload mid s b).disk = b.disk ∧
      ∀ t, t ≠ T → (fanOutAux env T payload mid s b).subscribers t = b.subscribers t := by
  intro s
  induction s with
  | nil =>
    intro pre b hsub hpre
    simp [fanOutAux, hsub]
  | cons x rest ih =>
    intro pre b hsub hpre
    by_cases hx : env x = true
    · have hrw : fanOutAux env T payload mid (x :: rest) b =
          fanOutAux env T payload mid rest
            { b with sent := b.sent ++ [(x, Record.msg T payload mid)] } := by
        simp [fanOutAux, hx]
      have hsub' : ({ b with sent := b.sent ++ [(x, Record.msg T payload mid)] } :
          Broker).subscribers T = (pre ++ [x]) ++ rest := by
        simpa using hsub
      have hpre' : ∀ y ∈ pre ++ [x], env y = true := by
        intro y hy
        rcases List.mem_append.mp hy with hy1 | hy2
        · exact hpre y hy1
        · rw [List.mem_singleton.mp hy2]; exact hx
      obtain ⟨ih1, ih2, ih3, ih4, ih5, ih6, ih7⟩ := ih (pre ++ [x]) _ hsub' hpre'
      rw [hrw]
      refine ⟨?_, ?_, ih3, ih4, ih5, ih6, ?_⟩
      · rw [ih1]
        simp [List.filter_cons, hx]
      · rw [ih2]
        simp [List.filter_cons, hx]
      · intro t ht
        rw [ih7 t ht]
    · have hxf : env x = false := by
        exact Bool.not_eq_true _ ▸ Bool.eq_false_iff.mpr hx
      have hxnp : x ∉ pre := by
        intro hmem
        exact hx (hpre x hmem)
      have hrw : fanOutAux env T payload mid (x :: rest) b =
          fanOutAux env T payload mid rest
            { b with subscribers := upd b.subscribers T ((b.subscribers T).erase x) } := by
        simp [fanOutAux, hxf]
      have herase : (b.subscribers T).erase x = pre ++ rest := by
        rw [hsub, List.erase_append_right _ hxnp, List.erase_cons_head]
      have hsub' : ({ b with subscribers := upd b.subscribers T ((b.subscribers T).erase x) } :
          Broker).subscribers T = pre ++ rest := by
        show upd b.subscribers T ((b.subscribers T).erase x) T = pre ++ rest
        rw [upd_same, herase]
      obtain ⟨ih1, ih2, ih3, ih4, ih5, ih6, ih7⟩ := ih pre _ hsub' hpre
      rw [hrw]
      refine ⟨?_, ?_, ih3, ih4, ih5, ih6, ?_⟩
      · rw [ih1]
        simp [List.filter_cons, hxf]
      · rw [ih2]
        simp [List.filter_cons, hxf]
      · intro t ht
        rw [ih7 t ht]
        show upd b.subscribers T ((b.subscribers T).erase x) t = b.subscribers t
        rw [upd_other _ _ _ _ ht]

lemma pubsubPublish_spec (env : Handle → Bool) (h : Handle) (mid : String)
    (r : Request) (b : Broker) :
    (pubsubPublish env h mid r b).sent =
        b.sent ++ ((b.subscribers r.topic).filter env).map
          (fun s => (s, Record.msg r.topic r.message mid))
        ++ [(h, Record.ack mid)] ∧
    (pubsubPublish env h mid r b).subscribers r.topic =
        (b.subscribers r.topic).filter env ∧
    (pubsubPublish env h mid r b).queues r.topic =
        b.queues r.topic ++ [(r.message, mid)] ∧
    (pubsubPublish env h mid r b).ptp_queues = b.ptp_queues ∧
    (pubsubPublish env h mid r b).ptp_consumers = b.ptp_consumers ∧
    (∀ t2, t2 ≠ r.topic → (pubsubPublish env h mid r b).subscribers t2 = b.subscribers t2) ∧
    (∀ t2, t2 ≠ r.topic → (pubsubPublish env h mid r b).queues t2 = b.queues t2) := by
  unfold pubsubPublish notify_subscribers
  obtain ⟨s1, s2, s3, s4, s5, s6, s7⟩ := fanOutAux_spec env r.topic r.message mid
    ((({ b with queues := upd b.queues r.topic (b.queues r.topic ++ [(r.message, mid)]) } :
      Broker)).subscribers r.topic) []
    { b with queues := upd b.queues r.topic (b.queues r.topic ++ [(r.message, mid)]) }
    (List.nil_append _).symm (by intro y hy; exact absurd hy (List.not_mem_nil y))
  refine ⟨?_, ?_, ?_, ?_, ?_, ?_, ?_⟩
  · show (_ ++ [(h, Record.ack mid)]) = _
    rw [s1]
  · show (fanOutAux env r.topic r.message mid _ _).subscribers r.topic = _
    rw [s2]
    simp
  · show (fanOutAux env r.topic r.message mid _ _).queues r.topic = _
    rw [s3]
    exact upd_same _ _ _
  · exact s4
  · exact s5
  · intro t2 ht2
    show (fanOutAux env r.topic r.message mid _ _).subscribers t2 = _
    rw [s7 t2 ht2]
  · intro t2 ht2
    show (fanOutAux env r.topic r.message mid _ _).queues t2 = _
    rw [s3]
    exact upd_other _ _ _ _ ht2

/-- C3: publishing in pubsub mode fans the message out over the current
subscriber list in list order: every handle whose write succeeds gets the
message record, every handle whose write fails is removed from the subscriber
list within the same call, delivery to the remaining subscribers still
happens, and the publisher still receives its ack rather than an error. -/
theorem c3_fan_out_tolerates_failure (env : Handle → Bool) (h : Handle) (fresh : String)
    (r : Request) (b : Broker)
    (ha : r.action = some "publish") (hm : r.mode = some "pubsub") :
    (handle_request env h fresh r b).sent =
        b.sent ++ ((b.subscribers r.topic).filter env).map
          (fun s => (s, Record.msg r.topic r.message (effectiveId fresh r)))
        ++ [(h, Record.ack (effectiveId fresh r))] ∧
    (handle_request env h fresh r b).subscribers r.topic =
        (b.subscribers r.topic).filter env := by
  have hh : handle_request env h fresh r b =
      pubsubPublish env h (effectiveId fresh r) r b := by
    simp [handle_request, ha, hm]
  obtain ⟨p1, p2, p3, p4, p5⟩ := pubsubPublish_spec env h (effectiveId fresh r) r b
  rw [hh]
  exact ⟨p1, p2⟩

/-- Environment in which only handle 4 has a failing stream. -/
def env4 : Handle → Bool := fun h => h != 4

/-- A publish request in pubsub mode for topic t. -/
def r3 : Request :=
  { action := some "publish", topic := some "t", message := some "x"
    mode := some "pubsub", message_id := some "i" }

/-- A broker in which topic t has the subscribers 3, 4 and 5 in that order. -/
def b3w : Broker :=
  { emptyBroker with subscribers := upd emptyBroker.subscribers (some "t") [3, 4, 5] }

/-- Witness for C3: on the concrete state b3w with subscriber 4 failing, the
fan-out sends to 3 and 5 in order, still acks the publisher, and leaves the
subscriber list as 3, 5. -/
theorem c3_fan_out_tolerates_failure_witness :
    (handle_request env4 0 "g" r3 b3w).sent =
        b3w.sent ++ ((b3w.subscribers r3.topic).filter env4).map
          (fun s => (s, Record.msg r3.topic r3.message (effectiveId "g" r3)))
        ++ [(0, Record.ack (effectiveId "g" r3))] ∧
    (handle_request env4 0 "g" r3 b3w).subscribers r3.topic = [3, 5] := by
  have h := c3_fan_out_tolerates_failure env4 0 "g" r3 b3w rfl rfl
  exact ⟨h.1, h.2.trans (by decide)⟩

lemma replayBacklog_spec (env : Handle → Bool) (h : Handle) (T : Key)
    (henv : env h = true) :
    ∀ (ms : List Msg) (b : Broker),
      (replayBacklog env h T ms b).sent =
          b.sent ++ ms.map (fun m => (h, Record.msg T m.1 m.2)) ∧
      (replayBacklog env h T ms b).queues = b.queues ∧
      (replayBacklog env h T ms b).ptp_queues = b.ptp_queues ∧
      (replayBacklog env h T ms b).subscribers = b.subscribers ∧
      (replayBacklog env h T ms b).ptp_consumers = b.ptp_consumers ∧
      (replayBacklog env h T ms b).disk = b.disk := by
  intro ms
  induction ms with
  | nil =>
    intro b
    simp [replayBacklog]
  | cons m rest ih =>
    intro b
    obtain ⟨p, i⟩ := m
    obtain ⟨ih1, ih2, ih3, ih4, ih5, ih6⟩ :=
      ih { b with sent := b.sent ++ [(h, Record.msg T p i)] }
    have hrw : replayBacklog env h T ((p, i) :: rest) b =
        replayBacklog env h T rest { b with sent := b.sent ++ [(h, Record.msg T p i)] } := by
      simp [replayBacklog, henv]
    rw [hrw]
    refine ⟨?_, ih2, ih3, ih4, ih5, ih6⟩
    rw [ih1]
    simp

lemma pubsubPublish_no_subs (env : Handle → Bool) (h : Handle) (mid : String)
    (r : Request) (b : Broker) (hs : b.subscribers r.topic = []) :
    (pubsubPublish env h mid r b).queues r.topic = b.queues r.topic ++ [(r.message, mid)] ∧
    (pubsubPublish env h mid r b).subscribers = b.subscribers ∧
    (pubsubPublish env h mid r b).sent = b.sent ++ [(h, Record.ack mid)] := by
  obtain ⟨p1, p2, p3, p4, p5, p6, p7⟩ := pubsubPublish_spec env h mid r b
  refine ⟨p3, ?_, ?_⟩
  · funext t
    by_cases ht : t = r.topic
    · rw [ht, p2, hs]
      simp
    · exact p6 t ht
  · rw [p1, hs]
    simp

/-- A publish request in pubsub mode carrying payload p and id i for topic t. -/
def pubPReq (t p i : String) : Request :=
  { action := some "publish", topic := some t, message := some p
    mode := some "pubsub", message_id := some i }

/-- A subscribe request for topic t in pubsub mode. -/
def subPReq (t : String) : Request :=
  { action := some "subscribe", topic := some t, message := none
    mode := some "pubsub", message_id := none }

lemma handle_pubP (env : Handle → Bool) (P : Handle) (t p i : String) (b : Broker)
    (hi : i ≠ "") :
    handle_request env P "w" (pubPReq t p i) b =
      pubsubPublish env P i (pubPReq t p i) b := by
  have he : effectiveId "w" (pubPReq t p i) = i := by
    simp [effectiveId, pubPReq, hi]
  have ha : (pubPReq t p i).action = some "publish" := rfl
  have hm : (pubPReq t p i).mode = some "pubsub" := rfl
  simp [handle_request, ha, hm, he]

lemma step_fields (env : Handle → Bool) (P : Handle) (t p i : String) (b : Broker)
    (hi : i ≠ "") (hs : b.subscribers (some t) = []) :
    (handle_request env P "w" (pubPReq t p i) b).queues (some t) =
        b.queues (some t) ++ [(some p, i)] ∧
    (handle_request env P "w" (pubPReq t p i) b).subscribers = b.subscribers ∧
    (handle_request env P "w" (pubPReq t p i) b).sent =
        b.sent ++ [(P, Record.ack i)] := by
  rw [handle_pubP env P t p i b hi]
  obtain ⟨f1, f2, f3⟩ := pubsubPublish_no_subs env P i (pubPReq t p i) b hs
  exact ⟨f1, f2, f3⟩

lemma step_sent (env : Handle → Bool) (P : Handle) (t p i : String) (b : Broker)
    (hi : i ≠ "") :
    (handle_request env P "w" (pubPReq t p i) b).sent =
      b.sent ++ ((b.subscribers (some t)).filter env).map
        (fun s => (s, Record.msg (some t) (some p) i))
      ++ [(P, Record.ack i)] := by
  rw [handle_pubP env P t p i b hi]
  exact (pubsubPublish_spec env P i (pubPReq t p i) b).1

/-- Connection P publishing the (payload, id) pairs of ms to topic t in pubsub
mode, one publish request per pair, in list order. -/
def publishAll (env : Handle → Bool) (P : Handle) (t : String)
    (ms : List (String × String)) (b : Broker) : Broker :=
  ms.foldl (fun acc pm => handle_request env P "w" (pubPReq t pm.1 pm.2) acc) b

lemma publishAll_spec (env : Handle → Bool) (P : Handle) (t : String) :
    ∀ (ms : List (String × String)) (b : Broker),
      b.subscribers (some t) = [] → (∀ pm ∈ ms, pm.2 ≠ "") →
      (publishAll env P t ms b).queues (some t) =
          b.queues (some t) ++ ms.map (fun pm => (some pm.1, pm.2)) ∧
      (publishAll env P t ms b).subscribers = b.subscribers ∧
      (publishAll env P t ms b).sent =
          b.sent ++ ms.map (fun pm => (P, Record.ack pm.2)) := by
  intro ms
  induction ms with
  | nil =>
    intro b hs hids
    simp [publishAll]
  | cons pm rest ih =>
    intro b hs hids
    obtain ⟨p, i⟩ := pm
    have hi : i ≠ "" := hids (p, i) (by simp)
    obtain ⟨f1, f2, f3⟩ := step_fields env P t p i b hi hs
    have hsub2 : (handle_request env P "w" (pubPReq t p i) b).subscribers (some t) = [] := by
      rw [f2]
      exact hs
    have hids2 : ∀ pm2 ∈ rest, pm2.2 ≠ "" :=
      fun pm2 hm => hids pm2 (List.mem_cons_of_mem _ hm)
    obtain ⟨g1, g2, g3⟩ := ih (handle_request env P "w" (pubPReq t p i) b) hsub2 hids2
    have hfold : publishAll env P t ((p, i) :: rest) b =
        publishAll env P t rest (handle_request env P "w" (pubPReq t p i) b) := rfl
    rw [hfold]
    refine ⟨?_, ?_, ?_⟩
    · rw [g1, f1]
      simp
    · rw [g2, f2]
    · rw [g3, f3]
      simp

lemma filter_fst_ne {α : Type} (h P : Handle) (hne : P ≠ h) (f : α → Record)
    (l : List α) :
    (l.map (fun a => (P, f a))).filter (fun q => q.1 == h) = [] := by
  induction l with
  | nil => rfl
  | cons a rest ih => simp [List.filter_cons, hne, ih]

lemma recv_map_self {α : Type} (h : Handle) (f : α → Record) (l : List α) :
    ((l.map (fun a => (h, f a))).filter (fun q => q.1 == h)).map (fun q => q.2) =
      l.map f := by
  induction l with
  | nil => rfl
  | cons a rest ih => simp [List.filter_cons, ih]

lemma handle_subP (env : Handle → Bool) (C : Handle) (t : String) (b : Broker) :
    handle_request env C "w" (subPReq t) b =
      replayBacklog env C (some t) (b.queues (some t))
        { b with subscribers := upd b.subscribers (some t) (b.subscribers (some t) ++ [C]) } := by
  have ha : (subPReq t).action = some "subscribe" := rfl
  have hm : (subPReq t).mode = some "pubsub" := rfl
  simp [handle_request, ha, hm, pubsubSubscribe]
  rfl

/-- C4: starting from the empty broker, connection P publishes the list ms of
(payload, id) pairs to topic t with no subscriber present; each publish is
acked and the messages pile up in the backlog in publish order.  Connection C
then subscribes: it receives exactly the ms messages as backlog replay, in
original order, the backlog itself staying intact; and a message published
after the subscription reaches C only after the replayed backlog. -/
theorem c4_backlog_replay (env : Handle → Bool) (P C : Handle) (t : String)
    (ms : List (String × String)) (p2 i2 : String)
    (hPC : P ≠ C) (hC : env C = true)
    (hids : ∀ pm ∈ ms, pm.2 ≠ "") (hi2 : i2 ≠ "") :
    receivedBy C (handle_request env C "w" (subPReq t) (publishAll env P t ms emptyBroker)) =
      ms.map (fun pm => Record.msg (some t) (some pm.1) pm.2) ∧
    (handle_request env C "w" (subPReq t) (publishAll env P t ms emptyBroker)).queues (some t) =
      ms.map (fun pm => (some pm.1, pm.2)) ∧
    receivedBy P (publishAll env P t ms emptyBroker) =
      ms.map (fun pm => Record.ack pm.2) ∧
    receivedBy C (handle_request env P "w" (pubPReq t p2 i2)
        (handle_request env C "w" (subPReq t) (publishAll env P t ms emptyBroker))) =
      ms.map (fun pm => Record.msg (some t) (some pm.1) pm.2)
        ++ [Record.msg (some t) (some p2) i2] := by
  obtain ⟨a1, a2, a3⟩ := publishAll_spec env P t ms emptyBroker rfl hids
  set b1 := publishAll env P t ms emptyBroker with hb1
  rw [handle_subP env C t b1]
  set b1s := ({ b1 with
    subscribers := upd b1.subscribers (some t) (b1.subscribers (some t) ++ [C]) } : Broker)
    with hb1s
  obtain ⟨r1, r2, r3, r4, r5, r6⟩ :=
    replayBacklog_spec env C (some t) hC (b1.queues (some t)) b1s
  set b2 := replayBacklog env C (some t) (b1.queues (some t)) b1s with hb2
  have hq1 : b1.queues (some t) = ms.map (fun pm => (some pm.1, pm.2)) := by
    rw [a1]
    exact List.nil_append _
  have hsent1 : b1.sent = ms.map (fun pm => (P, Record.ack pm.2)) := by
    rw [a3]
    exact List.nil_append _
  have hb1ssent : b1s.sent = ms.map (fun pm => (P, Record.ack pm.2)) := by
    rw [hb1s]
    exact hsent1
  have hsent2 : b2.sent =
      ms.map (fun pm => (P, Record.ack pm.2)) ++
      ms.map (fun pm => (C, Record.msg (some t) (some pm.1) pm.2)) := by
    rw [r1, hb1ssent, hq1, List.map_map]
    rfl
  have hrecv1 : receivedBy C b2 = ms.map (fun pm => Record.msg (some t) (some pm.1) pm.2) := by
    simp only [receivedBy]
    rw [hsent2, List.filter_append, List.map_append]
    rw [filter_fst_ne C P hPC (fun pm => Record.ack pm.2) ms]
    rw [recv_map_self C (fun pm => Record.msg (some t) (some pm.1) pm.2) ms]
    simp
  refine ⟨hrecv1, ?_, ?_, ?_⟩
  · rw [r2, hb1s]
    exact hq1
  · simp only [receivedBy]
    rw [hsent1]
    rw [recv_map_self P (fun pm => Record.ack pm.2) ms]
  · have hsubs2 : b2.subscribers (some t) = [C] := by
      rw [r4, hb1s]
      show upd b1.subscribers (some t) (b1.subscribers (some t) ++ [C]) (some t) = [C]
      rw [upd_same, a2]
      rfl
    have hs2 := step_sent env P t p2 i2 b2 hi2
    simp only [receivedBy]
    rw [hs2, hsubs2]
    have hfC : List.filter env [C] = [C] := by
      simp [List.filter_cons, hC]
    rw [hfC]
    rw [hsent2]
    rw [List.filter_append, List.filter_append, List.filter_append,
      List.map_append, List.map_append, List.map_append]
    rw [filter_fst_ne C P hPC (fun pm => Record.ack pm.2) ms]
    rw [recv_map_self C (fun pm => Record.msg (some t) (some pm.1) pm.2) ms]
    simp [List.filter_cons, hPC]

/-- Witness for C4: the spec example with one message published to t1 before
any subscriber exists, then a subscription by connection 1, then one more
publish. -/
theorem c4_backlog_replay_witness :
    receivedBy 1 (handle_request envAll 1 "w" (subPReq "t1")
        (publishAll envAll 0 "t1" [("hello", "id1")] emptyBroker)) =
      [Record.msg (some "t1") (some "hello") "id1"] ∧
    (handle_request envAll 1 "w" (subPReq "t1")
        (publishAll envAll 0 "t1" [("hello", "id1")] emptyBroker)).queues (some "t1") =
      [(some "hello", "id1")] ∧
    receivedBy 0 (publishAll envAll 0 "t1" [("hello", "id1")] emptyBroker) =
      [Record.ack "id1"] ∧
    receivedBy 1 (handle_request envAll 0 "w" (pubPReq "t1" "world" "id2")
        (handle_request envAll 1 "w" (subPReq "t1")
          (publishAll envAll 0 "t1" [("hello", "id1")] emptyBroker))) =
      [Record.msg (some "t1") (some "hello") "id1",
       Record.msg (some "t1") (some "world") "id2"] := by
  have h := c4_backlog_replay envAll 0 1 "t1" [("hello", "id1")] "world" "id2"
    (by decide) rfl (by decide) (by decide)
  exact ⟨h.1, h.2.1, h.2.2.1, h.2.2.2⟩
